import Mathlib

/-!
Formal model of the trade-matching core of the AI-Trading-Journal repository
(`utils/csv_parser.py`, class `WebullTradeParser`).

Conventions of the shallow embedding:

* Python/numpy floats are modelled as exact rationals (`ℚ`).  The spec's own
  worked examples assume exact decimal arithmetic.  Division in `ℚ` is total
  with `x / 0 = 0`; the one place the code divides by a possibly-zero value
  (`pnl_percent`) divides numpy float64 scalars, where a zero divisor yields an
  IEEE infinity together with a RuntimeWarning rather than an exception, so in
  both the code and the model the computation proceeds and a record is emitted.
* pandas timestamps are modelled as seconds-since-epoch rationals; `NaT`
  (missing) is `Option.none`.
* A parallel refinement of the matcher (`OrderN`, `stepOrderN`) carries NaN —
  pandas' missing marker for a numeric cell coerced by `pd.to_numeric` —
  through the price channel as `Option ℚ`, with the NaN-propagating,
  never-raising arithmetic the floats actually perform, for the claims about
  a missing `Avg Price`.
* Display-only strings (the `date`, `entry_time`, `exit_time` fields of a
  trade record, which the code produces with `strftime`) are rendered by
  simple total formatters; no claim depends on their exact format.
* A fill row (one row of the filled-orders frame) is an `Order`; the fields
  are the columns the matcher reads.
-/

/-- One filled-order row as consumed by `_match_symbol_trades`:
`Side`, `Filled` (quantity), `Avg Price`, `Filled Time` (`none` = NaT),
`Name` (`none` = column absent, read via `.get` with a default). -/
structure Order where
  side : String
  filled : ℚ
  avg_price : ℚ
  filled_time : Option ℚ
  name : Option String
deriving DecidableEq

/-- Python `int()` applied to a rational: truncation toward zero, as in
`int(duration_delta.total_seconds() / 60)`. -/
def pyTrunc (x : ℚ) : ℤ :=
  if 0 ≤ x then ⌊x⌋ else -⌊-x⌋

/-- Python `round(x, 2)` on the model's exact rationals: round `100 * x` to the
nearest integer and scale back.  (Python rounds exact half-way ties to even;
`round` here rounds them up.  No value examined by a theorem in this file is a
half-way tie, so the two agree on everything used.) -/
def round2 (x : ℚ) : ℚ :=
  ((round (100 * x) : ℤ) : ℚ) / 100

/-- Two-digit zero-padded decimal rendering of a natural number (display only). -/
def pad2 (n : Nat) : String :=
  ⟨[Char.ofNat (48 + n / 10 % 10), Char.ofNat (48 + n % 10)]⟩

/-- Decimal digit list of a natural number, driven by structural fuel. -/
def natDigitsAux : Nat → Nat → List Char
  | 0, _ => []
  | fuel + 1, n => if n = 0 then [] else natDigitsAux fuel (n / 10) ++ [Char.ofNat (48 + n % 10)]

/-- Decimal rendering of a natural number (display only). -/
def natToStr (n : Nat) : String :=
  if n = 0 then "0" else ⟨natDigitsAux (n + 1) n⟩

/-- Display rendering of `entry_time.strftime("%H:%M:%S EDT")` (or `"Unknown"`
when the timestamp is missing, as in the code's guarded formatting).  Only the
time of day is rendered; the date is dropped, exactly as in the source.  No
claim depends on the rendered text. -/
def fmtTimeHMS (ot : Option ℚ) : String :=
  match ot with
  | none => "Unknown"
  | some t =>
    let secs : Nat := (Int.emod ⌊t⌋ 86400).toNat
    pad2 (secs / 3600) ++ ":" ++ pad2 (secs % 3600 / 60) ++ ":" ++ pad2 (secs % 60) ++ " EDT"

/-- Display rendering of `entry_time.strftime("%Y-%m-%d")` (or `"Unknown"`),
modelled as the epoch-day index; display only. -/
def fmtDate (ot : Option ℚ) : String :=
  match ot with
  | none => "Unknown"
  | some t => "epoch-day " ++ natToStr (⌊t / 86400⌋).toNat

/-- One emitted trade record (the dict built in `_match_symbol_trades`).
The Python code stores `scale_number` as the string `"k/n"` and the later
rewrite recovers `k` with `.split("/")[0]`; since `k` is a decimal numeral
containing no `/`, the pair `(scale_num, scale_den)` is an exact model of that
string and of the split-and-rejoin update. -/
structure Trade where
  date : String
  symbol : String
  company_name : String
  entry_price : ℚ
  entry_time : String
  exit_price : ℚ
  exit_time : String
  quantity : ℚ
  pnl_dollar : ℚ
  pnl_percent : ℚ
  duration_minutes : ℤ
  scale_num : Nat
  scale_den : Nat
  position_type : String
  entry_reason : String
  exit_reason : String
  emotional_state : String
  market_context : String
  lessons_learned : String
  ai_analysis : String
  trade_grade : String
deriving DecidableEq

/-- Models the Python comparison `t["entry_time"] == entry_time` used both to
count the current entry's already-emitted legs and to select the trades whose
denominator the Final-Exit rewrite patches.  The left operand is the string the
trade record stores for display (`entry_time.strftime("%H:%M:%S EDT")`, or
`"Unknown"`), a date-less time-of-day rendering; the right operand is the
entry's full pandas `Timestamp` (date, time and Eastern zone).  pandas equality
between a `Timestamp` and a string parses the string when it can: a date-less
`"HH:MM:SS EDT"` string resolves, at best, against the interpreter's current
date and host timezone, `"Unknown"` does not parse at all, and aware-vs-naive
or different-date `Timestamp` equality is `False` (recent pandas returns
`False` rather than raising for `==`).  Hence for fills carrying their own
(historical) dates the comparison never holds, and the model takes it to be
`false`.  The first argument is the trade's stored `entry_time` string, the
second the matcher's `entry_time` timestamp. -/
def entryTimeFieldEq (_tradeEntryTime : String) (_entryTime : Option ℚ) : Bool :=
  false

/-- The matcher's per-symbol working state: the locals of
`_match_symbol_trades` (`position`, `avg_cost`, `entry_time`, `entry_orders`,
the output list `trades`), plus the diagnostics the code prints when it cannot
compute a duration, modelled as a list so that "a diagnostic is recorded" is
observable. -/
structure MatchState where
  position : ℚ
  avg_cost : ℚ
  entry_time : Option ℚ
  entry_orders : List Order
  trades : List Trade
  diags : List String
deriving DecidableEq

/-- Initial state of `_match_symbol_trades`: flat, no trades. -/
def initState : MatchState :=
  { position := 0, avg_cost := 0, entry_time := none, entry_orders := [], trades := [], diags := [] }

/-- Model of `_estimate_total_exits(orders, entry_time)`: count the Sell rows
of the symbol's whole order list whose `Filled Time` is strictly after
`entry_time` (a comparison with NaT is `False` in pandas, hence `none` counts
as not-after), with a minimum of 1; a missing `entry_time` yields 1 (the
guard at the top of the function). -/
def estimateTotalExits (orders : List Order) (entry_time : Option ℚ) : Nat :=
  match entry_time with
  | none => 1
  | some et =>
    max ((orders.filter (fun o =>
      (match o.filled_time with
       | some u => decide (et < u)
       | none => false) && o.side == "Sell")).length) 1

/-- The Sell-with-open-position branch of `_match_symbol_trades` (lines
188-315 of `utils/csv_parser.py`), translated clause by clause:
clamped exit quantity, guarded duration, scale bookkeeping with the
provisional/definitive denominator split and the Final-Exit rewrite of sibling
Scale Out trades, the trade record, and the position update with reset to FLAT
on full close. -/
def sellExitUpdate (symbol : String) (orders : List Order) (s : MatchState) (o : Order) :
    MatchState :=
  let exit_quantity := min o.filled s.position
  let durDiag : ℤ × List String :=
    match s.entry_time, o.filled_time with
    | some t1, some t2 => (pyTrunc ((t2 - t1) / 60), s.diags)
    | _, _ => (0, s.diags ++ ["could not calculate duration (invalid timestamps)"])
  let remaining_after_exit := s.position - exit_quantity
  let scale_num :=
    (s.trades.filter (fun t =>
      t.symbol == symbol && entryTimeFieldEq t.entry_time s.entry_time)).length + 1
  let scaleInfo : Nat × String × List Trade :=
    if 0 < remaining_after_exit then
      (estimateTotalExits orders s.entry_time, "Scale Out", s.trades)
    else
      (scale_num,
       if 1 < scale_num then "Final Exit" else "Full Exit",
       s.trades.map (fun t =>
         if t.symbol == symbol && entryTimeFieldEq t.entry_time s.entry_time &&
            t.position_type == "Scale Out"
         then { t with scale_den := scale_num } else t))
  let trade : Trade :=
    { date := fmtDate s.entry_time
      symbol := symbol
      company_name := o.name.getD symbol
      entry_price := round2 s.avg_cost
      entry_time := fmtTimeHMS s.entry_time
      exit_price := o.avg_price
      exit_time := fmtTimeHMS o.filled_time
      quantity := exit_quantity
      pnl_dollar := round2 ((o.avg_price - s.avg_cost) * exit_quantity)
      pnl_percent := round2 ((o.avg_price - s.avg_cost) / s.avg_cost * 100)
      duration_minutes := durDiag.1
      scale_num := scale_num
      scale_den := scaleInfo.1
      position_type := scaleInfo.2.1
      entry_reason := ""
      exit_reason := ""
      emotional_state := ""
      market_context := ""
      lessons_learned := ""
      ai_analysis := ""
      trade_grade := "" }
  let newTrades := scaleInfo.2.2 ++ [trade]
  let newPosition := s.position - exit_quantity
  if newPosition ≤ 0 then
    { position := 0, avg_cost := 0, entry_time := none, entry_orders := [],
      trades := newTrades, diags := durDiag.2 }
  else
    { s with position := newPosition, trades := newTrades, diags := durDiag.2 }

/-- One iteration of the order loop of `_match_symbol_trades`: Buy from flat
opens a position, Buy while open averages up, Sell while open exits (see
`sellExitUpdate`), anything else — including a Sell while flat — leaves the
state untouched. -/
def stepOrder (symbol : String) (orders : List Order) (s : MatchState) (o : Order) :
    MatchState :=
  if o.side = "Buy" then
    if s.position = 0 then
      { s with entry_time := o.filled_time, avg_cost := o.avg_price,
               position := o.filled, entry_orders := [o] }
    else
      let total_cost := s.position * s.avg_cost + o.filled * o.avg_price
      let newPosition := s.position + o.filled
      { s with position := newPosition, avg_cost := total_cost / newPosition,
               entry_orders := s.entry_orders ++ [o] }
  else if o.side = "Sell" ∧ 0 < s.position then
    sellExitUpdate symbol orders s o
  else
    s

/-- Folding the matcher's step over a fill list from a given state.  The
`orders` argument is the symbol's whole order list, which the code keeps in
scope for `_estimate_total_exits`. -/
def matchFold (symbol : String) (orders : List Order) (s : MatchState) (l : List Order) :
    MatchState :=
  l.foldl (stepOrder symbol orders) s

/-- Model of `_match_symbol_trades(symbol, orders)`: run the step over the
symbol's fills from the flat initial state and return the emitted trades. -/
def matchSymbolTrades (symbol : String) (orders : List Order) : List Trade :=
  (matchFold symbol orders initState orders).trades

/-- Sum of the `quantity` fields of a trade list. -/
def sumQty (ts : List Trade) : ℚ :=
  (ts.map (fun t => t.quantity)).sum

/-- Total quantity of the Buy fills of an order list. -/
def buyQty (l : List Order) : ℚ :=
  ((l.filter (fun o => o.side == "Buy")).map (fun o => o.filled)).sum

/-- Quantity-weighted price mass of an order list (sum of quantity * price). -/
def wsum (l : List Order) : ℚ :=
  (l.map (fun o => o.filled * o.avg_price)).sum

/-- Total quantity of an order list. -/
def qsum (l : List Order) : ℚ :=
  (l.map (fun o => o.filled)).sum

/-- Shorthand for a Buy fill at a given quantity, price and time. -/
def mkBuy (q p t : ℚ) : Order :=
  { side := "Buy", filled := q, avg_price := p, filled_time := some t, name := none }

/-- Shorthand for a Sell fill at a given quantity, price and time. -/
def mkSell (q p t : ℚ) : Order :=
  { side := "Sell", filled := q, avg_price := p, filled_time := some t, name := none }

/-! ## The raw-row layer and the driver

`match_trades_with_scaling` iterates rows of a pandas frame.  A raw row may
lack a column entirely; reading a missing column raises `KeyError`, which the
per-order `try/except` in `_match_symbol_trades` catches before continuing
with the next row.  `RawOrder` models such a row: `none` in `side`, `filled`
or `avg_price` stands for an absent column (whose access raises), while `none`
in `filled_time` is the ordinary NaT value (no exception) and `name` is read
with `.get` and a default (no exception either). -/

/-- A Python exception relevant to the matcher's row processing. -/
inductive PyErr where
  | keyError (field : String)
deriving DecidableEq

/-- A possibly-malformed order row (see the section comment above). -/
structure RawOrder where
  side : Option String
  filled : Option ℚ
  avg_price : Option ℚ
  filled_time : Option ℚ
  name : Option String
deriving DecidableEq

/-- Reading the fields of a row, as the order-loop body does: accessing an
absent `Side`, `Filled` or `Avg Price` column raises `KeyError`.  (Python
performs the accesses lazily inside the branches, so a `KeyError` raised
between the assignments of the Buy-from-flat branch can leave `entry_time`
and `avg_cost` updated while `position` is still 0; that partially-updated
state is output-equivalent to an unchanged one, because those two fields are
only read while `position > 0` and are overwritten by the next opening Buy.
The model therefore reads all fields up front.) -/
def readOrder (ro : RawOrder) : Except PyErr Order :=
  match ro.side with
  | none => .error (.keyError "Side")
  | some sd =>
    match ro.filled with
    | none => .error (.keyError "Filled")
    | some f =>
      match ro.avg_price with
      | none => .error (.keyError "Avg Price")
      | some ap =>
        .ok { side := sd, filled := f, avg_price := ap,
              filled_time := ro.filled_time, name := ro.name }

/-- The rows of a raw list that parse, in order (the rows the matcher can
actually process; the others are skipped by the `try/except`). -/
def parsedRows (raws : List RawOrder) : List Order :=
  raws.filterMap (fun ro => (readOrder ro).toOption)

/-- One iteration of the order loop over a raw row, with the `try/except ...
continue` of `_match_symbol_trades`: a row whose field reads raise is skipped
and the state is kept. -/
def stepRaw (symbol : String) (orders : List Order) (s : MatchState) (ro : RawOrder) :
    MatchState :=
  match readOrder ro with
  | .ok o => stepOrder symbol orders s o
  | .error _ => s

/-- `_match_symbol_trades` on raw rows: total on every input, skipping rows
that raise.  The order list kept for `_estimate_total_exits` is the list of
rows that parse (see `readOrder` on why this is output-equivalent). -/
def matchSymbolTradesRaw (symbol : String) (raws : List RawOrder) : List Trade :=
  (raws.foldl (stepRaw symbol (parsedRows raws)) initState).trades

/-- Model of `match_trades_with_scaling`: the batch arrives grouped by symbol
(the pandas group-by); for each symbol the driver drops rows whose
`Filled Time` is missing (`dropna`) and runs the per-symbol matcher, collecting
all trades in order. -/
def matchTradesWithScaling (batch : List (String × List RawOrder)) : List Trade :=
  batch.foldl
    (fun acc p => acc ++ matchSymbolTradesRaw p.1 (p.2.filter (fun ro => ro.filled_time.isSome)))
    []

/-! ## The timestamp normalizer

`_parse_datetime_robust` works on strings.  The embedding processes the
character list of the string with structurally recursive helpers (so that the
kernel can evaluate them), mirroring each Python operation: the empty-input
check, `strip()`, the `"EDT" in s` / `"EST" in s` containment tests,
`replace(" EDT", "")`, the strict `"%m/%d/%Y %H:%M:%S"` parse, pytz Eastern
localization, and the permissive `pd.to_datetime(..., errors="coerce")`
fallback. -/

/-- A parsed calendar timestamp (naive: no zone attached yet). -/
structure NaiveDT where
  year : Nat
  month : Nat
  day : Nat
  hour : Nat
  minute : Nat
  second : Nat
deriving DecidableEq

/-- Result of normalizing one timestamp string: an Eastern-localized instant
(only the EDT/EST branches produce these); a timezone-aware instant carrying
the string's own UTC offset in minutes (the generic fallback produces these
for offset- or zone-suffixed parsable strings, without any Eastern
localization); a zone-naive instant (the generic fallback on parsable strings
carrying no zone information); or the missing-value marker `NaT`. -/
inductive TsResult where
  | awareEastern (dt : NaiveDT)
  | awareOffset (dt : NaiveDT) (offsetMinutes : ℤ)
  | naiveTs (dt : NaiveDT)
  | natMissing
deriving DecidableEq

/-- Python `str.strip` whitespace test for the characters that can occur here. -/
def isSpaceChar (c : Char) : Bool :=
  c = ' ' || c = '\t' || c = '\n' || c = '\r'

/-- Python `str.strip()` on a character list. -/
def trimChars (l : List Char) : List Char :=
  ((l.dropWhile isSpaceChar).reverse.dropWhile isSpaceChar).reverse

/-- Containment of a three-character token, as in Python `"EDT" in s`. -/
def containsTok3 (a b c : Char) : List Char → Bool
  | x :: y :: z :: rest => (x = a && y = b && z = c) || containsTok3 a b c (y :: z :: rest)
  | _ => false

/-- Removal of every occurrence of a four-character token, as in Python
`s.replace(" EDT", "")` (left-to-right, non-overlapping). -/
def removeTok4 (a b c d : Char) : List Char → List Char
  | x :: y :: z :: w :: rest =>
    if x = a && y = b && z = c && w = d then removeTok4 a b c d rest
    else x :: removeTok4 a b c d (y :: z :: w :: rest)
  | l => l

/-- Splitting on a separator character, as in Python `s.split(sep)` for a
one-character separator. -/
def splitOnChar (sep : Char) : List Char → List (List Char)
  | [] => [[]]
  | c :: rest =>
    match splitOnChar sep rest with
    | [] => [[c]]
    | h :: t => if c = sep then [] :: h :: t else (c :: h) :: t

/-- Decimal digit-string to number; `none` unless nonempty and all digits. -/
def digitsToNat? (l : List Char) : Option Nat :=
  if !l.isEmpty && l.all (fun c => c.isDigit) then
    some (l.foldl (fun n c => 10 * n + (c.toNat - 48)) 0)
  else none

/-- A numeric field of at most `k` digits, as `strptime` width rules demand. -/
def numFieldK (k : Nat) (l : List Char) : Option Nat :=
  if l.length ≤ k then digitsToNat? l else none

/-- Gregorian leap-year test. -/
def isLeapYear (y : Nat) : Bool :=
  (y % 4 = 0 && y % 100 ≠ 0) || y % 400 = 0

/-- Days in a month of a given year. -/
def daysInMonth (y m : Nat) : Nat :=
  if m = 2 then (if isLeapYear y then 29 else 28)
  else if m = 4 || m = 6 || m = 9 || m = 11 then 30
  else 31

/-- Validity of a parsed timestamp's calendar fields. -/
def validNaiveDT (dt : NaiveDT) : Prop :=
  1 ≤ dt.month ∧ dt.month ≤ 12 ∧ 1 ≤ dt.day ∧ dt.day ≤ daysInMonth dt.year dt.month ∧
    dt.hour ≤ 23 ∧ dt.minute ≤ 59 ∧ dt.second ≤ 59

instance (dt : NaiveDT) : Decidable (validNaiveDT dt) := by
  unfold validNaiveDT; infer_instance

/-- Strict parse of `"%m/%d/%Y %H:%M:%S"`, as
`pd.to_datetime(s, format="%m/%d/%Y %H:%M:%S")` demands: exactly one space,
slash-separated date, colon-separated time, fields within `strptime` widths
and calendar ranges; any mismatch is a parse failure (an exception in Python,
caught by the surrounding handler). -/
def parseMDYHMS (l : List Char) : Option NaiveDT :=
  match splitOnChar ' ' l with
  | [datePart, timePart] =>
    match splitOnChar '/' datePart, splitOnChar ':' timePart with
    | [ms, ds, ys], [hs, mins, ss] =>
      match numFieldK 2 ms, numFieldK 2 ds, numFieldK 4 ys,
            numFieldK 2 hs, numFieldK 2 mins, numFieldK 2 ss with
      | some m, some d, some y, some hh, some mi, some s2 =>
        if 1 ≤ m ∧ m ≤ 12 ∧ 1 ≤ d ∧ d ≤ daysInMonth y m ∧ hh ≤ 23 ∧ mi ≤ 59 ∧ s2 ≤ 59
        then some { year := y, month := m, day := d, hour := hh, minute := mi, second := s2 }
        else none
      | _, _, _, _, _, _ => none
    | _, _ => none
  | _ => none

/-- Split a time field at the first explicit UTC-offset sign, as the generic
parser treats `"HH:MM:SS+HH:MM"` forms: the characters before the first
`+`/`-` and, when one is present, that sign together with the characters
after it. -/
def splitAtSign : List Char → List Char × Option (Char × List Char)
  | [] => ([], none)
  | c :: rest =>
    if c = '+' || c = '-' then ([], some (c, rest))
    else
      match splitAtSign rest with
      | (core, off) => (c :: core, off)

/-- Model of the permissive fallback `pd.to_datetime(s, errors="coerce")`,
restricted to ISO-format inputs `"YYYY-MM-DD"` and `"YYYY-MM-DD HH:MM:SS"`,
the latter optionally suffixed by an explicit UTC offset `"+HH:MM"`/`"-HH:MM"`.
The result pairs the calendar fields with the parsed offset in minutes, when
one was present: a string with no zone information yields a ZONE-NAIVE
timestamp, and a string carrying an explicit offset yields a timezone-aware
timestamp at THAT offset — in neither case does the fallback localize to
Eastern.  The pandas parser accepts further formats (and resolves some zone
names, e.g. `"UTC"`, likewise to aware non-Eastern timestamps, an outcome the
offset case here also represents); the restriction narrows the accepted input
set, not the outcome set, and only inputs of the modelled forms are exercised
by the theorems in this file. -/
def genericParseISO (l : List Char) : Option (NaiveDT × Option ℤ) :=
  let parseDatePart := fun (datePart : List Char) =>
    match splitOnChar '-' datePart with
    | [ys, ms, ds] =>
      match numFieldK 4 ys, numFieldK 2 ms, numFieldK 2 ds with
      | some y, some m, some d =>
        if 1 ≤ m ∧ m ≤ 12 ∧ 1 ≤ d ∧ d ≤ daysInMonth y m then some (y, m, d) else none
      | _, _, _ => none
    | _ => none
  match splitOnChar ' ' l with
  | [datePart] =>
    match parseDatePart datePart with
    | some (y, m, d) =>
      some ({ year := y, month := m, day := d, hour := 0, minute := 0, second := 0 }, none)
    | none => none
  | [datePart, timePart] =>
    match parseDatePart datePart, splitAtSign timePart with
    | some (y, m, d), (timeCore, offPart) =>
      match splitOnChar ':' timeCore with
      | [hs, mins, ss] =>
        match numFieldK 2 hs, numFieldK 2 mins, numFieldK 2 ss with
        | some hh, some mi, some s2 =>
          if hh ≤ 23 ∧ mi ≤ 59 ∧ s2 ≤ 59 then
            let dt : NaiveDT :=
              { year := y, month := m, day := d, hour := hh, minute := mi, second := s2 }
            match offPart with
            | none => some (dt, none)
            | some (sgn, offChars) =>
              match splitOnChar ':' offChars with
              | [ohs, oms] =>
                match numFieldK 2 ohs, numFieldK 2 oms with
                | some oh, some om =>
                  if oh ≤ 23 ∧ om ≤ 59 then
                    some (dt, some (if sgn = '-' then -(((oh * 60 + om : Nat)) : ℤ)
                                    else ((oh * 60 + om : Nat) : ℤ)))
                  else none
                | _, _ => none
              | _ => none
          else none
        | _, _, _ => none
      | _ => none
    | _, _ => none
  | _ => none

/-- Model of `_parse_datetime_robust` on one input string's characters:
empty input is NaT; otherwise strip, test `"EDT"`/`"EST"` containment, on a
hit remove the `" EDT"`/`" EST"` token, strict-parse and localize to US
Eastern (pytz `localize` with its default `is_dst` never raises on a valid
naive datetime); otherwise fall back to permissive generic parsing, which
yields a zone-naive instant, or a timezone-aware instant at the string's own
offset when the string carries one; every failure anywhere yields NaT — the
surrounding `try/except` turns any exception into NaT and continues. -/
def parseDatetimeRobustChars (l : List Char) : TsResult :=
  if l.isEmpty then .natMissing
  else
    let t := trimChars l
    if containsTok3 'E' 'D' 'T' t then
      match parseMDYHMS (trimChars (removeTok4 ' ' 'E' 'D' 'T' t)) with
      | some dt => .awareEastern dt
      | none => .natMissing
    else if containsTok3 'E' 'S' 'T' t then
      match parseMDYHMS (trimChars (removeTok4 ' ' 'E' 'S' 'T' t)) with
      | some dt => .awareEastern dt
      | none => .natMissing
    else
      match genericParseISO t with
      | some (dt, none) => .naiveTs dt
      | some (dt, some off) => .awareOffset dt off
      | none => .natMissing

/-- Model of `_parse_datetime_robust` on one input string. -/
def parseDatetimeRobust (s : String) : TsResult :=
  parseDatetimeRobustChars s.data

/-! ## The matcher under missing (NaN) prices

`pd.to_numeric(..., errors="coerce")` turns a malformed `Avg Price` cell into
NaN, and the matcher has no guard against it: a Buy with NaN price opens a
position whose `avg_cost` is NaN, and the arithmetic of a later Sell
(`price - avg_cost`, the division for `pnl_percent`, `round(·, 2)`) simply
propagates NaN — NaN arithmetic raises no exception under CPython floats or
numpy float64 scalars, and `round(nan, 2)` is NaN — so a trade record with
NaN price/pnl fields is emitted.  This refinement of the rational model
carries that missing-value marker through the price-valued fields exactly as
the main model carries the NaT marker through timestamps: `none` is NaN.
Quantities and timestamps keep the main model's types; only the price
channel (`Avg Price`, `avg_cost`, and the fields computed from them)
becomes `Option ℚ`. -/

/-- NaN-propagating addition on possibly-missing floats. -/
def padd : Option ℚ → Option ℚ → Option ℚ
  | some a, some b => some (a + b)
  | _, _ => none

/-- NaN-propagating subtraction on possibly-missing floats. -/
def psub : Option ℚ → Option ℚ → Option ℚ
  | some a, some b => some (a - b)
  | _, _ => none

/-- NaN-propagating multiplication on possibly-missing floats. -/
def pmul : Option ℚ → Option ℚ → Option ℚ
  | some a, some b => some (a * b)
  | _, _ => none

/-- NaN-propagating division on possibly-missing floats.  A zero divisor —
which under the numpy float64 scalars the code manipulates yields a
non-finite value (infinity or NaN) with only a RuntimeWarning, never an
exception — is folded into the same non-finite marker; no theorem in this
file evaluates a zero divisor. -/
def pdiv : Option ℚ → Option ℚ → Option ℚ
  | some a, some b => if b = 0 then none else some (a / b)
  | _, _ => none

/-- Python `round(x, 2)` on a possibly-missing float: `round(nan, 2)` is NaN. -/
def pround2 : Option ℚ → Option ℚ :=
  Option.map round2

/-- A filled-order row whose `Avg Price` may be NaN (`none`). -/
structure OrderN where
  side : String
  filled : ℚ
  avg_price : Option ℚ
  filled_time : Option ℚ
  name : Option String
deriving DecidableEq

/-- An emitted trade record under possibly-NaN prices: the fields computed
from `Avg Price` and `avg_cost` are possibly-NaN, everything else is as in
`Trade`. -/
structure TradeN where
  date : String
  symbol : String
  company_name : String
  entry_price : Option ℚ
  entry_time : String
  exit_price : Option ℚ
  exit_time : String
  quantity : ℚ
  pnl_dollar : Option ℚ
  pnl_percent : Option ℚ
  duration_minutes : ℤ
  scale_num : Nat
  scale_den : Nat
  position_type : String
  entry_reason : String
  exit_reason : String
  emotional_state : String
  market_context : String
  lessons_learned : String
  ai_analysis : String
  trade_grade : String
deriving DecidableEq

/-- The matcher's working state under possibly-NaN prices. -/
structure MatchStateN where
  position : ℚ
  avg_cost : Option ℚ
  entry_time : Option ℚ
  entry_orders : List OrderN
  trades : List TradeN
  diags : List String
deriving DecidableEq

/-- Initial state: `avg_cost = 0` is the Python integer 0, not NaN. -/
def initStateN : MatchStateN :=
  { position := 0, avg_cost := some 0, entry_time := none, entry_orders := [],
    trades := [], diags := [] }

/-- `_estimate_total_exits` over possibly-NaN-priced rows (prices play no
role in it). -/
def estimateTotalExitsN (orders : List OrderN) (entry_time : Option ℚ) : Nat :=
  match entry_time with
  | none => 1
  | some et =>
    max ((orders.filter (fun o =>
      (match o.filled_time with
       | some u => decide (et < u)
       | none => false) && o.side == "Sell")).length) 1

/-- The Sell branch of `_match_symbol_trades` under possibly-NaN prices:
identical to `sellExitUpdate` except that every price computation is the
NaN-propagating one the floats actually perform. -/
def sellExitUpdateN (symbol : String) (orders : List OrderN) (s : MatchStateN) (o : OrderN) :
    MatchStateN :=
  let exit_quantity := min o.filled s.position
  let durDiag : ℤ × List String :=
    match s.entry_time, o.filled_time with
    | some t1, some t2 => (pyTrunc ((t2 - t1) / 60), s.diags)
    | _, _ => (0, s.diags ++ ["could not calculate duration (invalid timestamps)"])
  let remaining_after_exit := s.position - exit_quantity
  let scale_num :=
    (s.trades.filter (fun t =>
      t.symbol == symbol && entryTimeFieldEq t.entry_time s.entry_time)).length + 1
  let scaleInfo : Nat × String × List TradeN :=
    if 0 < remaining_after_exit then
      (estimateTotalExitsN orders s.entry_time, "Scale Out", s.trades)
    else
      (scale_num,
       if 1 < scale_num then "Final Exit" else "Full Exit",
       s.trades.map (fun t =>
         if t.symbol == symbol && entryTimeFieldEq t.entry_time s.entry_time &&
            t.position_type == "Scale Out"
         then { t with scale_den := scale_num } else t))
  let trade : TradeN :=
    { date := fmtDate s.entry_time
      symbol := symbol
      company_name := o.name.getD symbol
      entry_price := pround2 s.avg_cost
      entry_time := fmtTimeHMS s.entry_time
      exit_price := o.avg_price
      exit_time := fmtTimeHMS o.filled_time
      quantity := exit_quantity
      pnl_dollar := pround2 (pmul (psub o.avg_price s.avg_cost) (some exit_quantity))
      pnl_percent := pround2 (pmul (pdiv (psub o.avg_price s.avg_cost) s.avg_cost) (some 100))
      duration_minutes := durDiag.1
      scale_num := scale_num
      scale_den := scaleInfo.1
      position_type := scaleInfo.2.1
      entry_reason := ""
      exit_reason := ""
      emotional_state := ""
      market_context := ""
      lessons_learned := ""
      ai_analysis := ""
      trade_grade := "" }
  let newTrades := scaleInfo.2.2 ++ [trade]
  let newPosition := s.position - exit_quantity
  if newPosition ≤ 0 then
    { position := 0, avg_cost := some 0, entry_time := none, entry_orders := [],
      trades := newTrades, diags := durDiag.2 }
  else
    { s with position := newPosition, trades := newTrades, diags := durDiag.2 }

/-- One iteration of the order loop under possibly-NaN prices. -/
def stepOrderN (symbol : String) (orders : List OrderN) (s : MatchStateN) (o : OrderN) :
    MatchStateN :=
  if o.side = "Buy" then
    if s.position = 0 then
      { s with entry_time := o.filled_time, avg_cost := o.avg_price,
               position := o.filled, entry_orders := [o] }
    else
      let total_cost := padd (pmul (some s.position) s.avg_cost)
        (pmul (some o.filled) o.avg_price)
      let newPosition := s.position + o.filled
      { s with position := newPosition, avg_cost := pdiv total_cost (some newPosition),
               entry_orders := s.entry_orders ++ [o] }
  else if o.side = "Sell" ∧ 0 < s.position then
    sellExitUpdateN symbol orders s o
  else
    s

/-- `_match_symbol_trades` under possibly-NaN prices. -/
def matchSymbolTradesN (symbol : String) (orders : List OrderN) : List TradeN :=
  (orders.foldl (stepOrderN symbol orders) initStateN).trades

/-! ## Concrete fill sequences used by the evaluation theorems -/

/-- A one-entry, two-leg fill sequence followed by a second entry: the extra
later Sell inflates the provisional denominator of the first entry's Scale
Out leg, making the missing Final-Exit correction observable. -/
def exScaleFills : List Order :=
  [mkBuy 600 10 0, mkSell 300 11 60, mkSell 300 12 120, mkBuy 100 10 180, mkSell 100 11 240]

/-- One entry closed by three equal Sell legs: at the second leg the
already-consumed first leg is still counted by `_estimate_total_exits`. -/
def exThreeLegFills : List Order :=
  [mkBuy 900 10 0, mkSell 300 11 60, mkSell 300 11 120, mkSell 300 12 180]

/-- Fills whose Sell timestamps sit 100 seconds before and 90 seconds after
the entry time, exposing the truncation (and missing clamp) in the duration. -/
def exDurationFills : List Order :=
  [mkBuy 10 10 100, mkSell 5 11 0, mkSell 5 12 190]

/-- Two Buys averaging to a third-decimal cost, then a full exit: entry_price
is the rounded average while pnl is computed from the unrounded average. -/
def exRoundingFills : List Order :=
  [mkBuy 1 10 0, mkBuy 2 (1001 / 100) 60, mkSell 3 11 120]

/-- A minimal closed entry for witnesses. -/
def exSimpleFills : List Order :=
  [mkBuy 5 10 0, mkSell 5 11 60]

/-- A sample already-emitted trade record (for witnesses). -/
def exTrade : Trade :=
  { date := "epoch-day 0", symbol := "A", company_name := "A", entry_price := 10,
    entry_time := "00:00:00 EDT", exit_price := 11, exit_time := "00:01:00 EDT",
    quantity := 2, pnl_dollar := 2, pnl_percent := 10, duration_minutes := 1,
    scale_num := 1, scale_den := 2, position_type := "Scale Out",
    entry_reason := "", exit_reason := "", emotional_state := "", market_context := "",
    lessons_learned := "", ai_analysis := "", trade_grade := "" }

/-- A matcher state holding an open position of 10 at cost 10 with one
already-emitted Scale Out trade (for witnesses). -/
def exOpenState : MatchState :=
  { position := 10, avg_cost := 10, entry_time := some 0, entry_orders := [],
    trades := [exTrade], diags := [] }

/-- A raw row whose `Side` column is absent, so that reading it raises
`KeyError` (for witnesses). -/
def exBadRow : RawOrder :=
  { side := none, filled := some 1, avg_price := some 1, filled_time := some 0, name := none }

/-- The calendar fields of the spec's example timestamp
`09/15/2025 08:27:26` (also the fields of its ISO rendering). -/
def exStampDT : NaiveDT :=
  { year := 2025, month := 9, day := 15, hour := 8, minute := 27, second := 26 }

/-- A Buy whose `Avg Price` coerced to NaN, followed by a full Sell: the
position opens with NaN cost basis and the Sell's arithmetic propagates it. -/
def exNanFills : List OrderN :=
  [{ side := "Buy", filled := 10, avg_price := none, filled_time := some 0, name := none },
   { side := "Sell", filled := 10, avg_price := some 11, filled_time := some 60, name := none }]

/-- The trade record that a Sell against an open position emits, written out
as a function of the pre-step state and the fill (the sibling-leg count is 1
and the rewrite is the identity because `entryTimeFieldEq` never holds; see
`sellExitUpdate_eq`). -/
def sellTradeOf (symbol : String) (orders : List Order) (s : MatchState) (o : Order) : Trade :=
  { date := fmtDate s.entry_time
    symbol := symbol
    company_name := o.name.getD symbol
    entry_price := round2 s.avg_cost
    entry_time := fmtTimeHMS s.entry_time
    exit_price := o.avg_price
    exit_time := fmtTimeHMS o.filled_time
    quantity := min o.filled s.position
    pnl_dollar := round2 ((o.avg_price - s.avg_cost) * min o.filled s.position)
    pnl_percent := round2 ((o.avg_price - s.avg_cost) / s.avg_cost * 100)
    duration_minutes :=
      match s.entry_time, o.filled_time with
      | some t1, some t2 => pyTrunc ((t2 - t1) / 60)
      | _, _ => 0
    scale_num := 1
    scale_den :=
      if 0 < s.position - min o.filled s.position then estimateTotalExits orders s.entry_time
      else 1
    position_type :=
      if 0 < s.position - min o.filled s.position then "Scale Out" else "Full Exit"
    entry_reason := ""
    exit_reason := ""
    emotional_state := ""
    market_context := ""
    lessons_learned := ""
    ai_analysis := ""
    trade_grade := "" }

theorem siblingFilter_eq_nil (sym : String) (et : Option ℚ) (ts : List Trade) :
    ts.filter (fun t => t.symbol == sym && entryTimeFieldEq t.entry_time et) = [] := by
  simp [entryTimeFieldEq]

theorem siblingRewrite_eq_self (sym : String) (et : Option ℚ) (k : Nat) (ts : List Trade) :
    ts.map (fun t =>
      if t.symbol == sym && entryTimeFieldEq t.entry_time et && t.position_type == "Scale Out"
      then { t with scale_den := k } else t) = ts := by
  simp [entryTimeFieldEq]

/-- Characterization of the Sell branch: the new position is the old one less
the clamped exit quantity (the reset-to-flat case coincides, since the clamp
makes the difference exactly zero there), on a full close the cost basis and
entry data are reset, exactly one trade — `sellTradeOf` — is appended, and a
diagnostic is appended exactly when a timestamp needed for the duration is
missing. -/
theorem sellExitUpdate_eq (sym : String) (os : List Order) (s : MatchState) (o : Order) :
    sellExitUpdate sym os s o =
      { position := s.position - min o.filled s.position
        avg_cost := if s.position - min o.filled s.position ≤ 0 then 0 else s.avg_cost
        entry_time := if s.position - min o.filled s.position ≤ 0 then none else s.entry_time
        entry_orders := if s.position - min o.filled s.position ≤ 0 then [] else s.entry_orders
        trades := s.trades ++ [sellTradeOf sym os s o]
        diags := s.diags ++
          (match s.entry_time, o.filled_time with
           | some _, some _ => []
           | _, _ => ["could not calculate duration (invalid timestamps)"]) } := by
  have hmin : min o.filled s.position ≤ s.position := min_le_right _ _
  unfold sellExitUpdate sellTradeOf
  simp only [siblingFilter_eq_nil, siblingRewrite_eq_self, List.length_nil, Nat.zero_add,
    Nat.lt_irrefl, if_false]
  rcases s.entry_time with _ | t1 <;> rcases o.filled_time with _ | t2 <;>
    · split_ifs with h1 h2 <;>
      · first
        | rfl
        | (exfalso; linarith)
        | (congr 1 <;> first | rfl | linarith | simp)

theorem stepOrder_buy_flat (sym : String) (os : List Order) (s : MatchState) (o : Order)
    (h1 : o.side = "Buy") (h2 : s.position = 0) :
    stepOrder sym os s o =
      { s with entry_time := o.filled_time, avg_cost := o.avg_price,
               position := o.filled, entry_orders := [o] } := by
  unfold stepOrder
  rw [if_pos h1, if_pos h2]

theorem stepOrder_buy_open (sym : String) (os : List Order) (s : MatchState) (o : Order)
    (h1 : o.side = "Buy") (h2 : s.position ≠ 0) :
    stepOrder sym os s o =
      { s with position := s.position + o.filled,
               avg_cost := (s.position * s.avg_cost + o.filled * o.avg_price) /
                 (s.position + o.filled),
               entry_orders := s.entry_orders ++ [o] } := by
  unfold stepOrder
  rw [if_pos h1, if_neg h2]

theorem stepOrder_sell_open (sym : String) (os : List Order) (s : MatchState) (o : Order)
    (h1 : o.side = "Sell") (h2 : 0 < s.position) :
    stepOrder sym os s o = sellExitUpdate sym os s o := by
  unfold stepOrder
  rw [if_neg (by rw [h1]; decide), if_pos ⟨h1, h2⟩]

theorem stepOrder_skip (sym : String) (os : List Order) (s : MatchState) (o : Order)
    (h1 : o.side ≠ "Buy") (h2 : ¬(o.side = "Sell" ∧ 0 < s.position)) :
    stepOrder sym os s o = s := by
  unfold stepOrder
  rw [if_neg h1, if_neg h2]

theorem sumQty_append (a b : List Trade) : sumQty (a ++ b) = sumQty a + sumQty b := by
  simp [sumQty]

theorem buyQty_cons (o : Order) (l : List Order) :
    buyQty (o :: l) = (if o.side = "Buy" then o.filled else 0) + buyQty l := by
  unfold buyQty
  rw [List.filter_cons]
  by_cases hb : o.side = "Buy"
  · rw [if_pos (by simp [hb]), if_pos hb]
    simp
  · rw [if_neg (by simp [hb]), if_neg hb]
    simp

theorem matchFold_nil (sym : String) (os : List Order) (s : MatchState) :
    matchFold sym os s [] = s := rfl

theorem matchFold_cons (sym : String) (os : List Order) (s : MatchState) (o : Order)
    (l : List Order) :
    matchFold sym os s (o :: l) = matchFold sym os (stepOrder sym os s o) l := rfl

theorem matchFold_append (sym : String) (os : List Order) (s : MatchState)
    (l1 l2 : List Order) :
    matchFold sym os s (l1 ++ l2) = matchFold sym os (matchFold sym os s l1) l2 := by
  unfold matchFold
  exact List.foldl_append _ _ _ _

/-- Quantity conservation across one step: position plus the total quantity
already written into trades grows by exactly the fill quantity of a Buy and
is unchanged otherwise. -/
theorem stepOrder_mass (sym : String) (os : List Order) (s : MatchState) (o : Order) :
    (stepOrder sym os s o).position + sumQty (stepOrder sym os s o).trades =
      s.position + sumQty s.trades + (if o.side = "Buy" then o.filled else 0) := by
  by_cases hb : o.side = "Buy"
  · by_cases hz : s.position = 0
    · rw [stepOrder_buy_flat sym os s o hb hz, if_pos hb, hz]
      ring
    · rw [stepOrder_buy_open sym os s o hb hz, if_pos hb]
      ring
  · rw [if_neg hb]
    by_cases hs : o.side = "Sell" ∧ 0 < s.position
    · rw [stepOrder_sell_open sym os s o hs.1 hs.2, sellExitUpdate_eq, sumQty_append]
      have : sumQty [sellTradeOf sym os s o] = min o.filled s.position := by
        simp [sumQty, sellTradeOf]
      rw [this]
      ring
    · rw [stepOrder_skip sym os s o hb hs]
      ring

/-- Quantity conservation along any fill list. -/
theorem matchFold_mass (sym : String) (os : List Order) :
    ∀ (l : List Order) (s : MatchState),
      (matchFold sym os s l).position + sumQty (matchFold sym os s l).trades =
        s.position + sumQty s.trades + buyQty l := by
  intro l
  induction l with
  | nil => intro s; simp [matchFold_nil, buyQty]
  | cons o l ih =>
    intro s
    rw [matchFold_cons, ih, buyQty_cons, stepOrder_mass]
    ring

/-- One step preserves nonnegativity of the position, given a nonnegative
fill quantity. -/
theorem stepOrder_nonneg (sym : String) (os : List Order) (s : MatchState) (o : Order)
    (hs : 0 ≤ s.position) (ho : 0 ≤ o.filled) : 0 ≤ (stepOrder sym os s o).position := by
  by_cases hb : o.side = "Buy"
  · by_cases hz : s.position = 0
    · rw [stepOrder_buy_flat sym os s o hb hz]
      exact ho
    · rw [stepOrder_buy_open sym os s o hb hz]
      have : (0:ℚ) ≤ s.position + o.filled := by linarith
      exact this
  · by_cases hsell : o.side = "Sell" ∧ 0 < s.position
    · rw [stepOrder_sell_open sym os s o hsell.1 hsell.2, sellExitUpdate_eq]
      have := min_le_right o.filled s.position
      have : (0:ℚ) ≤ s.position - min o.filled s.position := by linarith
      exact this
    · rw [stepOrder_skip sym os s o hb hsell]
      exact hs

theorem wsum_cons (o : Order) (l : List Order) :
    wsum (o :: l) = o.filled * o.avg_price + wsum l := by
  simp [wsum]

theorem qsum_cons (o : Order) (l : List Order) :
    qsum (o :: l) = o.filled + qsum l := by
  simp [qsum]

/-- Position and cost basis after feeding a list of strictly positive Buy
fills into an open position: the position accumulates the quantities and the
cost basis is the mass-weighted mean of the old basis and the new fills. -/
theorem matchFold_buys_avg (sym : String) (os : List Order) :
    ∀ (l : List Order) (s : MatchState), 0 < s.position →
      (∀ o ∈ l, o.side = "Buy" ∧ 0 < o.filled) →
      (matchFold sym os s l).avg_cost =
          (s.position * s.avg_cost + wsum l) / (s.position + qsum l)
        ∧ (matchFold sym os s l).position = s.position + qsum l := by
  intro l
  induction l with
  | nil =>
    intro s hs _
    constructor
    · rw [matchFold_nil]
      unfold wsum qsum
      simp
      rw [mul_comm, mul_div_assoc, div_self (ne_of_gt hs), mul_one]
    · rw [matchFold_nil]
      unfold qsum
      simp
  | cons o l ih =>
    intro s hs hl
    have ho := hl o (List.mem_cons_self o l)
    have hrest : ∀ o' ∈ l, o'.side = "Buy" ∧ 0 < o'.filled :=
      fun o' h' => hl o' (List.mem_cons_of_mem o h')
    have hz : s.position ≠ 0 := ne_of_gt hs
    rw [matchFold_cons, stepOrder_buy_open sym os s o ho.1 hz]
    have hpos' : (0:ℚ) < s.position + o.filled := by linarith [ho.2]
    obtain ⟨ha, hp⟩ := ih
      { s with position := s.position + o.filled,
               avg_cost := (s.position * s.avg_cost + o.filled * o.avg_price) /
                 (s.position + o.filled),
               entry_orders := s.entry_orders ++ [o] } hpos' hrest
    refine ⟨?_, ?_⟩
    · rw [ha, wsum_cons, qsum_cons]
      show ((s.position + o.filled) *
            ((s.position * s.avg_cost + o.filled * o.avg_price) / (s.position + o.filled)) +
            wsum l) / (s.position + o.filled + qsum l) =
          (s.position * s.avg_cost + (o.filled * o.avg_price + wsum l)) /
            (s.position + (o.filled + qsum l))
      have hcan : (s.position + o.filled) *
          ((s.position * s.avg_cost + o.filled * o.avg_price) / (s.position + o.filled)) =
          s.position * s.avg_cost + o.filled * o.avg_price := by
        rw [mul_comm, div_mul_cancel₀ _ (ne_of_gt hpos')]
      rw [hcan]
      congr 1 <;> ring
    · rw [hp, qsum_cons]
      show s.position + o.filled + qsum l = s.position + (o.filled + qsum l)
      ring

/-- Processing raw rows with the per-row exception handler is the same as
processing the rows that parse. -/
theorem foldRaw_eq_foldParsed (sym : String) (os : List Order) :
    ∀ (raws : List RawOrder) (s : MatchState),
      raws.foldl (stepRaw sym os) s = (parsedRows raws).foldl (stepOrder sym os) s := by
  intro raws
  induction raws with
  | nil => intro s; rfl
  | cons ro rest ih =>
    intro s
    rw [List.foldl_cons]
    unfold parsedRows
    rw [List.filterMap_cons]
    cases hro : readOrder ro with
    | ok o =>
      have hstep : stepRaw sym os s ro = stepOrder sym os s o := by
        unfold stepRaw
        rw [hro]
      rw [hstep]
      show rest.foldl (stepRaw sym os) (stepOrder sym os s o) =
        (o :: rest.filterMap (fun ro => (readOrder ro).toOption)).foldl (stepOrder sym os) s
      rw [List.foldl_cons]
      exact ih (stepOrder sym os s o)
    | error e =>
      have hstep : stepRaw sym os s ro = s := by
        unfold stepRaw
        rw [hro]
      rw [hstep]
      show rest.foldl (stepRaw sym os) s =
        (rest.filterMap (fun ro => (readOrder ro).toOption)).foldl (stepOrder sym os) s
      exact ih s

/-- Any timestamp produced by the strict `"%m/%d/%Y %H:%M:%S"` parse passed
its range checks. -/
theorem parseMDYHMS_valid (l : List Char) (dt : NaiveDT) (h : parseMDYHMS l = some dt) :
    validNaiveDT dt := by
  unfold parseMDYHMS at h
  split at h <;> try exact Option.noConfusion h
  split at h <;> try exact Option.noConfusion h
  split at h <;> try exact Option.noConfusion h
  split at h
  · injection h with h'
    subst h'
    assumption
  · exact Option.noConfusion h

/-- Any Eastern-aware result of the normalizer carries valid calendar fields. -/
theorem parseRobustChars_aware_valid (l : List Char) (dt : NaiveDT)
    (h : parseDatetimeRobustChars l = .awareEastern dt) : validNaiveDT dt := by
  unfold parseDatetimeRobustChars at h
  split at h
  · exact TsResult.noConfusion h
  · dsimp only [] at h
    split at h
    · split at h
      · next dt2 heq =>
          injection h with h'
          subst h'
          exact parseMDYHMS_valid _ _ heq
      · exact TsResult.noConfusion h
    · split at h
      · split at h
        · next dt2 heq =>
            injection h with h'
            subst h'
            exact parseMDYHMS_valid _ _ heq
        · exact TsResult.noConfusion h
      · split at h <;> exact TsResult.noConfusion h

/-! ## The claims -/

/-- C1: for every per-symbol fill sequence processed by the matcher, over any
window of the fill list that begins and ends with the matcher flat — in
particular over a single entry that opens from FLAT and whose open quantity
returns to zero — the sum of the quantity fields of the Trade records emitted
during the window equals the total quantity bought during the window. -/
theorem c1_closed_entry_quantity (sym : String) (os pre mid : List Order)
    (h1 : (matchFold sym os initState pre).position = 0)
    (h2 : (matchFold sym os (matchFold sym os initState pre) mid).position = 0) :
    sumQty (matchFold sym os (matchFold sym os initState pre) mid).trades =
      sumQty (matchFold sym os initState pre).trades + buyQty mid := by
  have hmass := matchFold_mass sym os mid (matchFold sym os initState pre)
  rw [h1, h2] at hmass
  linarith

set_option maxRecDepth 100000 in
/-- Witness for C1 at a concrete fully-closed entry (buy 5, sell 5). -/
theorem c1_closed_entry_quantity_witness :
    (matchFold "A" exSimpleFills initState []).position = 0
    ∧ (matchFold "A" exSimpleFills (matchFold "A" exSimpleFills initState [])
        exSimpleFills).position = 0
    ∧ sumQty (matchFold "A" exSimpleFills (matchFold "A" exSimpleFills initState [])
        exSimpleFills).trades =
        sumQty (matchFold "A" exSimpleFills initState []).trades + buyQty exSimpleFills :=
  ⟨by with_unfolding_all decide, by with_unfolding_all decide,
   c1_closed_entry_quantity "A" exSimpleFills [] exSimpleFills
     (by with_unfolding_all decide) (by with_unfolding_all decide)⟩

set_option maxRecDepth 100000 in
/-- C2, evaluated at the failing input `exScaleFills` (an entry of two exit
legs followed by a later entry whose Sell inflates the provisional estimate):
the close of the first entry is recorded as leg `(1, 1, "Full Exit")` instead
of `(2, 2, "Final Exit")`, and the sibling Scale Out trade keeps its
provisional denominator 3 instead of being rewritten to the definitive leg
count 2 — the rewrite compares the trade's stored `"%H:%M:%S EDT"` display
string with the entry's full Timestamp and therefore never matches. -/
theorem c2_final_exit_rewrite_eval :
    (matchSymbolTrades "A" exScaleFills).map
      (fun t => (t.scale_num, t.scale_den, t.position_type))
      = [(1, 3, "Scale Out"), (1, 1, "Full Exit"), (1, 1, "Full Exit")] := by
  with_unfolding_all decide

/-- C3: the position is never negative (for fills of nonnegative quantity,
from any state with nonnegative position), a Sell arriving while the position
is 0 emits no trade and leaves the state exactly unchanged, and a Sell while
open is clamped: the emitted trade's quantity is `min(fill qty, position)` and
the position decreases by exactly that amount, never below zero. -/
theorem c3_no_short_position :
    (∀ (sym : String) (os l : List Order) (s : MatchState),
        0 ≤ s.position → (∀ o ∈ l, (0:ℚ) ≤ o.filled) →
        0 ≤ (matchFold sym os s l).position)
    ∧ (∀ (sym : String) (os : List Order) (s : MatchState) (o : Order),
        o.side = "Sell" → s.position = 0 → stepOrder sym os s o = s)
    ∧ (∀ (sym : String) (os : List Order) (s : MatchState) (o : Order),
        o.side = "Sell" → 0 < s.position →
        (stepOrder sym os s o).position = s.position - min o.filled s.position
        ∧ (stepOrder sym os s o).trades = s.trades ++ [sellTradeOf sym os s o]
        ∧ (sellTradeOf sym os s o).quantity = min o.filled s.position) := by
  refine ⟨?_, ?_, ?_⟩
  · intro sym os l
    induction l with
    | nil =>
      intro s hs _
      rw [matchFold_nil]
      exact hs
    | cons o l ih =>
      intro s hs hl
      rw [matchFold_cons]
      exact ih (stepOrder sym os s o)
        (stepOrder_nonneg sym os s o hs (hl o (List.mem_cons_self o l)))
        (fun o' h' => hl o' (List.mem_cons_of_mem o h'))
  · intro sym os s o h1 h2
    apply stepOrder_skip
    · rw [h1]
      decide
    · intro hc
      rw [h2] at hc
      exact lt_irrefl 0 hc.2
  · intro sym os s o h1 h2
    rw [stepOrder_sell_open sym os s o h1 h2, sellExitUpdate_eq]
    exact ⟨rfl, rfl, rfl⟩

set_option maxRecDepth 100000 in
/-- Witness for C3: nonnegativity along a concrete run, a Sell while flat as
a no-op, and the clamped exit on a concrete open state. -/
theorem c3_no_short_position_witness :
    (0:ℚ) ≤ initState.position
    ∧ (∀ o ∈ exSimpleFills, (0:ℚ) ≤ o.filled)
    ∧ 0 ≤ (matchFold "A" exSimpleFills initState exSimpleFills).position
    ∧ (mkSell 5 11 60).side = "Sell"
    ∧ initState.position = 0
    ∧ stepOrder "A" exSimpleFills initState (mkSell 5 11 60) = initState
    ∧ 0 < exOpenState.position
    ∧ (stepOrder "A" [] exOpenState (mkSell 4 11 60)).position =
        exOpenState.position - min (mkSell 4 11 60).filled exOpenState.position :=
  ⟨by with_unfolding_all decide, by with_unfolding_all decide,
   c3_no_short_position.1 "A" exSimpleFills exSimpleFills initState
     (by with_unfolding_all decide) (by with_unfolding_all decide),
   rfl, rfl,
   c3_no_short_position.2.1 "A" exSimpleFills initState (mkSell 5 11 60) rfl rfl,
   by with_unfolding_all decide,
   (c3_no_short_position.2.2 "A" [] exOpenState (mkSell 4 11 60) rfl
     (by with_unfolding_all decide)).1⟩

/-- C4: while a position is open the cost basis is the quantity-weighted mean
of the Buy fills that built it: a position opened from FLAT by a sequence of
Buys ends with `avg_cost = (Σ qᵢ pᵢ) / (Σ qᵢ)` (in particular
`(q1 p1 + q2 p2) / (q1 + q2)` after two Buys); a Buy into an open position
re-weights the basis by `(qty * avg + fill * price) / (qty + fill)` (the
mass-weighted mean, which prorates fills partially sold earlier); and a Sell
that does not close the position leaves `avg_cost` unchanged. -/
theorem c4_avg_cost_weighted_mean :
    (∀ (sym : String) (os : List Order) (b : Order) (rest : List Order),
        b.side = "Buy" → 0 < b.filled → (∀ o ∈ rest, o.side = "Buy" ∧ 0 < o.filled) →
        (matchFold sym os initState (b :: rest)).avg_cost =
          wsum (b :: rest) / qsum (b :: rest))
    ∧ (∀ (sym : String) (os : List Order) (s : MatchState) (o : Order),
        o.side = "Buy" → s.position ≠ 0 →
        (stepOrder sym os s o).avg_cost =
          (s.position * s.avg_cost + o.filled * o.avg_price) / (s.position + o.filled))
    ∧ (∀ (sym : String) (os : List Order) (s : MatchState) (o : Order),
        o.side = "Sell" → min o.filled s.position < s.position →
        (stepOrder sym os s o).avg_cost = s.avg_cost) := by
  refine ⟨?_, ?_, ?_⟩
  · intro sym os b rest hb hf hrest
    rw [matchFold_cons, stepOrder_buy_flat sym os initState b hb rfl]
    obtain ⟨ha, _⟩ := matchFold_buys_avg sym os rest ({ initState with entry_time := b.filled_time, avg_cost := b.avg_price, position := b.filled, entry_orders := [b] }) hf hrest
    rw [ha, wsum_cons, qsum_cons]
  · intro sym os s o hb hz
    rw [stepOrder_buy_open sym os s o hb hz]
  · intro sym os s o h1 hlt
    by_cases hp : 0 < s.position
    · rw [stepOrder_sell_open sym os s o h1 hp, sellExitUpdate_eq]
      show (if s.position - min o.filled s.position ≤ 0 then 0 else s.avg_cost) = s.avg_cost
      rw [if_neg]
      intro hle
      have := sub_pos.mpr hlt
      linarith
    · rw [stepOrder_skip sym os s o (by rw [h1]; decide) (fun hc => hp hc.2)]

set_option maxRecDepth 100000 in
/-- Witness for C4: two Buys of (500, 10) and (500, 12) from FLAT give the
weighted mean 11, and a partial Sell leaves the basis unchanged. -/
theorem c4_avg_cost_weighted_mean_witness :
    (mkBuy 500 10 0).side = "Buy"
    ∧ (0:ℚ) < (mkBuy 500 10 0).filled
    ∧ (∀ o ∈ [mkBuy 500 12 60], o.side = "Buy" ∧ 0 < o.filled)
    ∧ (matchFold "A" [] initState [mkBuy 500 10 0, mkBuy 500 12 60]).avg_cost =
        wsum [mkBuy 500 10 0, mkBuy 500 12 60] / qsum [mkBuy 500 10 0, mkBuy 500 12 60]
    ∧ wsum [mkBuy 500 10 0, mkBuy 500 12 60] / qsum [mkBuy 500 10 0, mkBuy 500 12 60] = 11
    ∧ min (mkSell 4 11 60).filled exOpenState.position < exOpenState.position
    ∧ (stepOrder "A" [] exOpenState (mkSell 4 11 60)).avg_cost = exOpenState.avg_cost :=
  ⟨rfl, by with_unfolding_all decide, by with_unfolding_all decide,
   c4_avg_cost_weighted_mean.1 "A" [] (mkBuy 500 10 0) [mkBuy 500 12 60] rfl
     (by with_unfolding_all decide) (by with_unfolding_all decide),
   by with_unfolding_all decide,
   by with_unfolding_all decide,
   c4_avg_cost_weighted_mean.2.2 "A" [] exOpenState (mkSell 4 11 60) rfl
     (by with_unfolding_all decide)⟩

set_option maxRecDepth 100000 in
/-- C5, refuted at a concrete input: at the second Scale Out leg of
`exThreeLegFills` (entry at time 0 closed by three Sells), the emitted
provisional denominator is 3 — `_estimate_total_exits` counts every Sell of
the symbol after the entry time, including the first leg that has already
been consumed — whereas the count of the remaining not-yet-consumed Sell
fills (the suffix of the fill list from the leg being processed) with time
strictly after the entry time is 2. -/
theorem c5_provisional_den_counterexample :
    ((matchSymbolTrades "A" exThreeLegFills).map (fun t => t.scale_den)) = [3, 3, 1]
    ∧ ((exThreeLegFills.drop 2).filter (fun o =>
        o.side == "Sell" && (match o.filled_time with
                             | some u => decide ((0:ℚ) < u)
                             | none => false))).length = 2
    ∧ (3 : Nat) ≠ 2 :=
  ⟨by with_unfolding_all decide, by with_unfolding_all decide, by decide⟩

/-- C5 amended: the provisional denominator of a Scale Out trade equals
`_estimate_total_exits` over the symbol's WHOLE order list — the count
(minimum 1) of all its Sell fills with time strictly after the entry time,
already-consumed exit legs of the same entry included — and the provisional
value is never superseded: no later step modifies an already-emitted trade
(the Final-Exit rewrite matches nothing, so every prior trade persists
unchanged in the output). -/
theorem c5_provisional_den_amended :
    (∀ (sym : String) (os : List Order) (s : MatchState) (o : Order),
        o.side = "Sell" → 0 < s.position → min o.filled s.position < s.position →
        (stepOrder sym os s o).trades = s.trades ++ [sellTradeOf sym os s o]
        ∧ (sellTradeOf sym os s o).scale_den = estimateTotalExits os s.entry_time
        ∧ (sellTradeOf sym os s o).position_type = "Scale Out")
    ∧ (∀ (sym : String) (os : List Order) (s : MatchState) (o : Order) (t : Trade),
        t ∈ s.trades → t ∈ (stepOrder sym os s o).trades) := by
  constructor
  · intro sym os s o h1 h2 h3
    refine ⟨?_, ?_, ?_⟩
    · rw [stepOrder_sell_open sym os s o h1 h2, sellExitUpdate_eq]
    · show (if 0 < s.position - min o.filled s.position then estimateTotalExits os s.entry_time
        else 1) = estimateTotalExits os s.entry_time
      rw [if_pos (sub_pos.mpr h3)]
    · show (if 0 < s.position - min o.filled s.position then "Scale Out" else "Full Exit")
        = "Scale Out"
      rw [if_pos (sub_pos.mpr h3)]
  · intro sym os s o t ht
    by_cases hb : o.side = "Buy"
    · by_cases hz : s.position = 0
      · rw [stepOrder_buy_flat sym os s o hb hz]
        exact ht
      · rw [stepOrder_buy_open sym os s o hb hz]
        exact ht
    · by_cases hsell : o.side = "Sell" ∧ 0 < s.position
      · rw [stepOrder_sell_open sym os s o hsell.1 hsell.2, sellExitUpdate_eq]
        exact List.mem_append_left _ ht
      · rw [stepOrder_skip sym os s o hb hsell]
        exact ht

set_option maxRecDepth 100000 in
/-- Witness for the amended C5: a concrete Scale Out leg carries the estimate
as denominator, and a previously emitted trade persists across a step. -/
theorem c5_provisional_den_amended_witness :
    (mkSell 4 11 60).side = "Sell"
    ∧ 0 < exOpenState.position
    ∧ min (mkSell 4 11 60).filled exOpenState.position < exOpenState.position
    ∧ (stepOrder "A" [mkSell 4 11 60] exOpenState (mkSell 4 11 60)).trades =
        exOpenState.trades ++ [sellTradeOf "A" [mkSell 4 11 60] exOpenState (mkSell 4 11 60)]
    ∧ (sellTradeOf "A" [mkSell 4 11 60] exOpenState (mkSell 4 11 60)).scale_den =
        estimateTotalExits [mkSell 4 11 60] exOpenState.entry_time
    ∧ exTrade ∈ exOpenState.trades
    ∧ exTrade ∈ (stepOrder "A" [] exOpenState (mkSell 4 11 60)).trades :=
  ⟨rfl, by with_unfolding_all decide, by with_unfolding_all decide,
   (c5_provisional_den_amended.1 "A" [mkSell 4 11 60] exOpenState (mkSell 4 11 60) rfl
     (by with_unfolding_all decide) (by with_unfolding_all decide)).1,
   (c5_provisional_den_amended.1 "A" [mkSell 4 11 60] exOpenState (mkSell 4 11 60) rfl
     (by with_unfolding_all decide) (by with_unfolding_all decide)).2.1,
   by with_unfolding_all decide,
   c5_provisional_den_amended.2 "A" [] exOpenState (mkSell 4 11 60) exTrade
     (by with_unfolding_all decide)⟩

set_option maxRecDepth 100000 in
/-- C6, refuted at a concrete input: on `exDurationFills` (entry at 100 s, a
Sell 100 s earlier in timestamp, a Sell 90 s later) the code records
durations `[-1, 1]` — `int()` truncation toward zero with no clamp at 0 —
whereas `max(0, round(minutes))` would give `[0, 2]`. -/
theorem c6_duration_counterexample :
    (matchSymbolTrades "A" exDurationFills).map (fun t => t.duration_minutes) = [-1, 1]
    ∧ [max 0 (round (((0:ℚ) - 100) / 60)), max 0 (round (((190:ℚ) - 100) / 60))]
        = [(0:ℤ), 2]
    ∧ ([-1, 1] : List ℤ) ≠ [0, 2] :=
  ⟨by with_unfolding_all decide, by with_unfolding_all decide, by decide⟩

/-- C6 amended: for every emitted trade the duration is Python `int()`
truncation toward zero of the elapsed minutes (no rounding to nearest and no
clamp at 0), and when either timestamp is missing the duration is 0 and a
diagnostic is recorded instead of raising. -/
theorem c6_duration_amended :
    ∀ (sym : String) (os : List Order) (s : MatchState) (o : Order),
      o.side = "Sell" → 0 < s.position →
      (stepOrder sym os s o).trades = s.trades ++ [sellTradeOf sym os s o]
      ∧ (sellTradeOf sym os s o).duration_minutes =
          (match s.entry_time, o.filled_time with
           | some t1, some t2 => pyTrunc ((t2 - t1) / 60)
           | _, _ => 0)
      ∧ (stepOrder sym os s o).diags =
          s.diags ++
            (match s.entry_time, o.filled_time with
             | some _, some _ => []
             | _, _ => ["could not calculate duration (invalid timestamps)"]) := by
  intro sym os s o h1 h2
  rw [stepOrder_sell_open sym os s o h1 h2, sellExitUpdate_eq]
  exact ⟨rfl, rfl, rfl⟩

set_option maxRecDepth 100000 in
/-- Witness for the amended C6: a concrete Sell 60 s after entry gets
duration 1, and a Sell with a missing timestamp gets duration 0 plus a
recorded diagnostic. -/
theorem c6_duration_amended_witness :
    (mkSell 4 11 60).side = "Sell"
    ∧ 0 < exOpenState.position
    ∧ (sellTradeOf "A" [] exOpenState (mkSell 4 11 60)).duration_minutes =
        pyTrunc (((60:ℚ) - 0) / 60)
    ∧ (stepOrder "A" [] exOpenState
        { side := "Sell", filled := 4, avg_price := 11, filled_time := none,
          name := none }).diags =
        exOpenState.diags ++ ["could not calculate duration (invalid timestamps)"] :=
  ⟨rfl, by with_unfolding_all decide,
   (c6_duration_amended "A" [] exOpenState (mkSell 4 11 60) rfl
     (by with_unfolding_all decide)).2.1,
   (c6_duration_amended "A" [] exOpenState
     { side := "Sell", filled := 4, avg_price := 11, filled_time := none, name := none }
     rfl (by with_unfolding_all decide)).2.2⟩

set_option maxRecDepth 100000 in
/-- C7, evaluated at the failing input `exNanFills`: a Buy whose `Avg Price`
is NaN (a malformed cell coerced by `pd.to_numeric(errors="coerce")`) opens a
position with NaN cost basis, and the following Sell is NOT skipped — NaN
arithmetic raises no exception under CPython floats or numpy float64 and
`round(nan, 2)` is NaN — so exactly one trade is emitted, carrying NaN
`entry_price`, `pnl_dollar` and `pnl_percent`, where the claim (and the
spec's ZeroOrMissingAvgCost error kind) mandate that no trade be emitted for
that fill. -/
theorem c7_nan_avg_cost_eval :
    (matchSymbolTradesN "A" exNanFills).map
      (fun t => (t.quantity, t.entry_price, t.pnl_dollar, t.pnl_percent, t.position_type))
      = [(10, none, none, none, "Full Exit")]
    ∧ (matchSymbolTradesN "A" exNanFills).length = 1
    ∧ (1 : Nat) ≠ 0 :=
  ⟨by with_unfolding_all decide, by with_unfolding_all decide, by decide⟩

set_option maxRecDepth 100000 in
/-- C8, refuted at a concrete input: the suffix-less but parsable string
`"2025-09-15 08:27:26"` takes the generic fallback, which performs no Eastern
localization, so the normalizer returns a zone-NAIVE instant — neither a
timezone-aware Eastern instant nor the missing-value marker. -/
theorem c8_fallback_counterexample :
    parseDatetimeRobust "2025-09-15 08:27:26" = .naiveTs exStampDT
    ∧ (∀ dt : NaiveDT, TsResult.naiveTs exStampDT ≠ TsResult.awareEastern dt)
    ∧ TsResult.naiveTs exStampDT ≠ TsResult.natMissing :=
  ⟨by with_unfolding_all decide, fun dt h => TsResult.noConfusion h,
   fun h => TsResult.noConfusion h⟩

set_option maxRecDepth 100000 in
/-- C8 amended: the normalizer is total and never raises; an EDT/EST-marked
parsable string such as `"09/15/2025 08:27:26 EDT"` is parsed as
month/day/year hour:minute:second and localized to US Eastern, and every
Eastern-aware result carries valid calendar fields; an empty (or unparsable)
string yields the missing-value marker; but for parsable strings WITHOUT a
recognized EDT/EST mark the claim's "Eastern instant or marker" dichotomy
fails: the generic fallback performs no Eastern localization, returning a
zone-naive instant when the string carries no zone information (the
counterexample) and a timezone-aware instant at the string's OWN offset when
it carries one (e.g. `"2025-09-15 08:27:26+02:00"`). -/
theorem c8_normalizer_amended :
    parseDatetimeRobust "09/15/2025 08:27:26 EDT" = .awareEastern exStampDT
    ∧ parseDatetimeRobust "" = .natMissing
    ∧ (∀ (s : String) (dt : NaiveDT),
        parseDatetimeRobust s = .awareEastern dt → validNaiveDT dt)
    ∧ parseDatetimeRobust "2025-09-15 08:27:26+02:00" = .awareOffset exStampDT 120 := by
  refine ⟨by with_unfolding_all decide, by with_unfolding_all decide, ?_,
    by with_unfolding_all decide⟩
  intro s dt h
  exact parseRobustChars_aware_valid s.data dt h

set_option maxRecDepth 100000 in
/-- Witness for the amended C8: the Eastern-aware result at the EDT example
has valid calendar fields. -/
theorem c8_normalizer_amended_witness :
    parseDatetimeRobust "09/15/2025 08:27:26 EDT" = .awareEastern exStampDT
    ∧ validNaiveDT exStampDT :=
  ⟨by with_unfolding_all decide,
   c8_normalizer_amended.2.2.1 "09/15/2025 08:27:26 EDT" exStampDT
     (by with_unfolding_all decide)⟩

/-- C9: no exception escapes the matcher — processing a raw fill collection
is the total function that processes exactly the rows it can read (so it runs
to completion and returns the trades it could match), and a row whose field
reads raise is skipped with the state unchanged, without aborting the
processing of the remaining rows. -/
theorem c9_no_escape :
    (∀ (sym : String) (raws : List RawOrder),
        matchSymbolTradesRaw sym raws = matchSymbolTrades sym (parsedRows raws))
    ∧ (∀ (sym : String) (os : List Order) (s : MatchState) (ro : RawOrder)
        (rest : List RawOrder) (e : PyErr), readOrder ro = .error e →
        (ro :: rest).foldl (stepRaw sym os) s = rest.foldl (stepRaw sym os) s) := by
  constructor
  · intro sym raws
    unfold matchSymbolTradesRaw matchSymbolTrades matchFold
    rw [foldRaw_eq_foldParsed]
  · intro sym os s ro rest e he
    rw [List.foldl_cons]
    have hskip : stepRaw sym os s ro = s := by
      unfold stepRaw
      rw [he]
    rw [hskip]

/-- Witness for C9: a row with a missing `Side` column raises `KeyError` on
read and is skipped without affecting the fold. -/
theorem c9_no_escape_witness :
    readOrder exBadRow = .error (.keyError "Side")
    ∧ ([exBadRow].foldl (stepRaw "A" []) initState =
        ([] : List RawOrder).foldl (stepRaw "A" []) initState) :=
  ⟨rfl, c9_no_escape.2 "A" [] initState exBadRow [] (.keyError "Side") rfl⟩

set_option maxRecDepth 100000 in
/-- C10: every emitted trade records `entry_price = round2 avg_cost` while
`pnl_dollar` and `pnl_percent` are computed from the unrounded `avg_cost`;
consequently on `exRoundingFills` (average cost 30.02/3) the emitted
`pnl_dollar` of 2.98 differs from `round2((exit_price - entry_price) *
quantity) = 2.97` recomputed from the trade's own recorded fields. -/
theorem c10_entry_price_rounding :
    (∀ (sym : String) (os : List Order) (s : MatchState) (o : Order),
        o.side = "Sell" → 0 < s.position →
        (stepOrder sym os s o).trades = s.trades ++ [sellTradeOf sym os s o]
        ∧ (sellTradeOf sym os s o).entry_price = round2 s.avg_cost
        ∧ (sellTradeOf sym os s o).pnl_dollar =
            round2 ((o.avg_price - s.avg_cost) * min o.filled s.position)
        ∧ (sellTradeOf sym os s o).pnl_percent =
            round2 ((o.avg_price - s.avg_cost) / s.avg_cost * 100))
    ∧ ((matchSymbolTrades "A" exRoundingFills).map
          (fun t => (t.pnl_dollar, round2 ((t.exit_price - t.entry_price) * t.quantity)))
        = [(149 / 50, 297 / 100)]
      ∧ (149 / 50 : ℚ) ≠ 297 / 100) := by
  refine ⟨?_, by with_unfolding_all decide, by with_unfolding_all decide⟩
  intro sym os s o h1 h2
  rw [stepOrder_sell_open sym os s o h1 h2, sellExitUpdate_eq]
  exact ⟨rfl, rfl, rfl, rfl⟩

set_option maxRecDepth 100000 in
/-- Witness for C10 at a concrete Sell against an open position. -/
theorem c10_entry_price_rounding_witness :
    (mkSell 4 11 60).side = "Sell"
    ∧ 0 < exOpenState.position
    ∧ (sellTradeOf "A" [] exOpenState (mkSell 4 11 60)).entry_price =
        round2 exOpenState.avg_cost
    ∧ (sellTradeOf "A" [] exOpenState (mkSell 4 11 60)).pnl_dollar =
        round2 (((mkSell 4 11 60).avg_price - exOpenState.avg_cost) *
          min (mkSell 4 11 60).filled exOpenState.position) :=
  ⟨rfl, by with_unfolding_all decide,
   (c10_entry_price_rounding.1 "A" [] exOpenState (mkSell 4 11 60) rfl
     (by with_unfolding_all decide)).2.1,
   (c10_entry_price_rounding.1 "A" [] exOpenState (mkSell 4 11 60) rfl
     (by with_unfolding_all decide)).2.2.1⟩
